import Mathlib

/-!
Shallow embedding of the keystroke-driven text replacement engine from
src/text_replacer.py, together with theorems settling the specification
claims about its rule table, rolling input buffer, delimiter handling,
replacement emission and suppression window.

Modelling conventions:
- Python strings are embedded as `List Char` (named `Str` below).
- Wall-clock time is embedded as `ℚ`; the fixed suppression delay 0.2s is
  the rational 1/5.
- The side effects of `_replace_text` (setting the suppression deadline,
  pressing/releasing backspace, typing text) are recorded as an explicit
  trace of `Effect`s in the order the Python code performs them.
- `on_press` becomes the pure function `onPress`, taking the current time
  as an argument and returning the updated state plus the emitted effects.
- A Python `dict` is embedded as an association list without duplicate
  keys; `dict(sorted(items, key=len, reverse=True))` becomes a stable
  insertion sort by descending trigger length.
- `raise ValueError` in the constructor becomes `Option.none`; errors in
  `parse_mapping_items` become `Except.error`.
-/

namespace TextReplacer

/-- Python strings are embedded as lists of characters. -/
abbrev Str := List Char

/-- The module-level `DELIMITERS` set from text_replacer.py. -/
def DELIMITERS : List Char :=
  [' ', '\n', '\t', '.', ',', '!', '?', ';', ':', ')', ']', '\x7d']

/-- The module-level `BACKTRACK_LIMIT` constant. -/
def BACKTRACK_LIMIT : Nat := 250

/-- The fixed suppression delay `0.2` seconds used in `_replace_text`. -/
def DELAY : ℚ := 1 / 5

/-- A pynput key event as observed by `on_press`: a named control key
(backspace, space, enter, tab, or any other key without a printable
character) or a key carrying a printable character. -/
inductive Key where
  | backspace
  | space
  | enter
  | tab
  | other
  | char (c : Char)
deriving DecidableEq

/-- One primitive side effect of the handler, in the order the Python code
performs them: setting `self._ignore_until`, pressing or releasing the
backspace key, or typing a text via `keyboard.type`. -/
inductive Effect where
  | setIgnoreUntil (t : ℚ)
  | pressBackspace
  | releaseBackspace
  | typeText (s : Str)
deriving DecidableEq

/-- The mutable state of a `TextReplacer` instance: the sorted rule list
`self.replacements`, the rolling `self.buffer`, and `self._ignore_until`. -/
structure ReplacerState where
  replacements : List (Str × Str)
  buffer : Str
  ignoreUntil : ℚ
deriving DecidableEq

/-- The sort key used in `__init__`: descending trigger length, so
`ruleGE a b` holds when `a` sorts no later than `b`. -/
abbrev ruleGE (a b : Str × Str) : Prop := b.1.length ≤ a.1.length

instance : IsTotal (Str × Str) ruleGE := ⟨fun a b => Nat.le_total b.1.length a.1.length⟩

instance : IsTrans (Str × Str) ruleGE := ⟨fun _ _ _ h1 h2 => Nat.le_trans h2 h1⟩

/-- `dict(sorted(replacements.items(), key=lambda x: len(x[0]), reverse=True))`:
a stable sort of the rule list by descending trigger length. -/
def sortRules (m : List (Str × Str)) : List (Str × Str) :=
  List.insertionSort ruleGE m

/-- `TextReplacer.__init__`: raises (returns `none`) when the mapping is
empty, otherwise stores the rules sorted by descending trigger length,
an empty buffer and a zero suppression deadline. -/
def init (replacements : List (Str × Str)) : Option ReplacerState :=
  if replacements.isEmpty then none
  else some { replacements := sortRules replacements, buffer := [], ignoreUntil := 0 }

/-- `n` backspace press/release pairs, as emitted by the loop in
`_replace_text`. -/
def backspacePairs : Nat → List Effect
  | 0 => []
  | n + 1 => Effect.pressBackspace :: Effect.releaseBackspace :: backspacePairs n

/-- The effect trace of `_replace_text(trigger, replacement, delimiter)` at
time `now`: set the suppression deadline first, then emit
`len(trigger) + len(delimiter)` backspace pairs, then type the
replacement, then type the delimiter when it is non-empty. -/
def replaceTextEffects (now : ℚ) (trigger replacement delimiter : Str) : List Effect :=
  Effect.setIgnoreUntil (now + DELAY) ::
    (backspacePairs (trigger.length + delimiter.length) ++
      [Effect.typeText replacement] ++
      (if delimiter.isEmpty then [] else [Effect.typeText delimiter]))

/-- The rule lookup performed by the loop in `_handle_delimiter`: the first
rule in iteration order whose trigger is a suffix of the buffer. -/
def findRule (rules : List (Str × Str)) (buffer : Str) : Option (Str × Str) :=
  rules.find? (fun p => p.1.isSuffixOf buffer)

/-- `TextReplacer._handle_delimiter`: on a match, perform the replacement
(which also moves the suppression deadline) and clear the buffer; with no
match, just clear the buffer. -/
def handleDelimiter (st : ReplacerState) (now : ℚ) (delimiter : Str) :
    ReplacerState × List Effect :=
  match findRule st.replacements st.buffer with
  | some (t, r) =>
      ({ st with buffer := [], ignoreUntil := now + DELAY },
        replaceTextEffects now t r delimiter)
  | none => ({ st with buffer := [] }, [])

/-- Python slicing `l[-n:]`: the last `n` elements (all of them when the
list is shorter than `n`). -/
def takeLast (n : Nat) (l : Str) : Str := l.drop (l.length - n)

/-- `TextReplacer.on_press` at time `now`: drop the event inside the
suppression window; a backspace removes the last buffered character; the
named space/enter/tab keys and printable delimiter characters invoke
delimiter handling; keys without a printable character are ignored; any
other character is appended to the buffer, truncated from the front to
`BACKTRACK_LIMIT`. -/
def onPress (st : ReplacerState) (now : ℚ) (key : Key) : ReplacerState × List Effect :=
  if now < st.ignoreUntil then (st, [])
  else
    match key with
    | Key.backspace => ({ st with buffer := st.buffer.dropLast }, [])
    | Key.space => handleDelimiter st now [' ']
    | Key.enter => handleDelimiter st now ['\n']
    | Key.tab => handleDelimiter st now ['\t']
    | Key.other => (st, [])
    | Key.char c =>
        if c ∈ DELIMITERS then handleDelimiter st now [c]
        else ({ st with buffer := takeLast BACKTRACK_LIMIT (st.buffer ++ [c]) }, [])

/-- Deliver a list of timed key events to `onPress`, threading the state
and concatenating the emitted effect traces. -/
def runEvents (st : ReplacerState) : List (ℚ × Key) → ReplacerState × List Effect
  | [] => (st, [])
  | e :: rest =>
      let r1 := onPress st e.1 e.2
      let r2 := runEvents r1.1 rest
      (r2.1, r1.2 ++ r2.2)

/-- Python `str.strip()`: remove leading and trailing whitespace. -/
def strip (s : Str) : Str :=
  ((s.dropWhile Char.isWhitespace).reverse.dropWhile Char.isWhitespace).reverse

/-- Python `item.split("=", 1)`: split at the first equals sign, or `none`
when the item contains no equals sign. -/
def splitEq : Str → Option (Str × Str)
  | [] => none
  | c :: rest =>
      if c = '=' then some ([], rest)
      else
        match splitEq rest with
        | some p => some (c :: p.1, p.2)
        | none => none

/-- Python `mapping[trigger] = replacement` on a dict embedded as an
association list: replace the value in place when the key exists,
otherwise append the new pair. -/
def insertAssoc (m : List (Str × Str)) (k v : Str) : List (Str × Str) :=
  if m.any (fun p => p.1 == k) then
    m.map (fun p => if p.1 == k then (k, v) else p)
  else m ++ [(k, v)]

/-- An item on which `parse_mapping_items` raises: either it has no equals
sign, or its trigger part is empty after stripping whitespace. -/
def badItem (item : Str) : Bool :=
  match splitEq item with
  | none => true
  | some p => (strip p.1).isEmpty

/-- The loop body of `parse_mapping_items`, threading the accumulated
mapping. -/
def parseMappingItemsAux (acc : List (Str × Str)) :
    List Str → Except Str (List (Str × Str))
  | [] => Except.ok acc
  | item :: rest =>
      match splitEq item with
      | none => Except.error ("Invalid --map entry").toList
      | some p =>
          let t := strip p.1
          if t.isEmpty then Except.error ("Trigger text cannot be empty.").toList
          else parseMappingItemsAux (insertAssoc acc t p.2) rest

/-- `parse_mapping_items`: build a mapping from `trigger=replacement`
items, raising on a missing equals sign or a blank trigger. -/
def parse_mapping_items (items : List Str) : Except Str (List (Str × Str)) :=
  parseMappingItemsAux [] items

/-- Recognize the backspace press effect, for counting emitted pairs. -/
def isBackspacePress : Effect → Bool
  | Effect.pressBackspace => true
  | _ => false

/-- The number of backspace presses in an effect trace. -/
def countBackspacePress (effs : List Effect) : Nat :=
  effs.countP isBackspacePress

/-- The rule set used in the "im"/"im sorry" scenario. -/
def imRules : List (Str × Str) :=
  [("im".toList, "I am".toList), ("im sorry".toList, "I apologize".toList)]

/-- The key sequence `i, m, space, s, o, r, r, y, space`, delivered one
second apart so that no later event falls inside the 0.2s suppression
window opened by a replacement. -/
def imEvents : List (ℚ × Key) :=
  [(1, Key.char 'i'), (2, Key.char 'm'), (3, Key.space), (4, Key.char 's'),
    (5, Key.char 'o'), (6, Key.char 'r'), (7, Key.char 'r'), (8, Key.char 'y'),
    (9, Key.space)]

/-! ### Helper lemmas -/

/-- `_handle_delimiter` clears the buffer in both of its branches. -/
theorem handleDelimiter_buffer_eq_nil (st : ReplacerState) (now : ℚ) (d : Str) :
    (handleDelimiter st now d).1.buffer = [] := by
  rcases h : findRule st.replacements st.buffer with _ | ⟨t, r⟩ <;>
    simp [handleDelimiter, h]

/-- The rule list produced by the constructor is sorted by descending
trigger length. -/
theorem sorted_sortRules (m : List (Str × Str)) : List.Sorted ruleGE (sortRules m) :=
  List.sorted_insertionSort ruleGE m

/-- On a list sorted by descending trigger length, `find?` returns an
element whose trigger length is maximal among all elements satisfying the
predicate. -/
theorem find?_length_max {l : List (Str × Str)} {p : Str × Str → Bool} {x : Str × Str}
    (hs : List.Sorted ruleGE l) (hf : l.find? p = some x) :
    ∀ y ∈ l, p y = true → y.1.length ≤ x.1.length := by
  induction l with
  | nil => simp at hf
  | cons a t ih =>
      rw [List.sorted_cons] at hs
      by_cases hpa : p a = true
      · rw [List.find?_cons_of_pos t hpa] at hf
        injection hf with hax
        subst hax
        intro y hy _
        rcases List.mem_cons.mp hy with rfl | hy
        · exact Nat.le_refl _
        · exact hs.1 y hy
      · rw [List.find?_cons_of_neg t hpa] at hf
        intro y hy hpy
        rcases List.mem_cons.mp hy with rfl | hy
        · exact absurd hpy hpa
        · exact ih hs.2 hf y hy hpy

/-- `backspacePairs n` contains exactly `n` backspace presses. -/
theorem countBackspacePress_backspacePairs (n : Nat) :
    countBackspacePress (backspacePairs n) = n := by
  induction n with
  | zero => rfl
  | succ k ih =>
      have ih2 : List.countP isBackspacePress (backspacePairs k) = k := ih
      show List.countP isBackspacePress
          (Effect.pressBackspace :: Effect.releaseBackspace :: backspacePairs k) = k + 1
      rw [List.countP_cons_of_pos _ _ (by rfl),
        List.countP_cons_of_neg _ _ (by simp [isBackspacePress]), ih2]

/-- Python slicing `l[-n:]` returns the whole list when it is short
 enough. -/
theorem takeLast_eq_self {n : Nat} {l : Str} (h : l.length ≤ n) : takeLast n l = l := by
  unfold takeLast
  rw [Nat.sub_eq_zero_of_le h, List.drop_zero]

/-- If some item in the list is malformed (no equals sign, or a trigger
that is blank after stripping), `parse_mapping_items` raises from any
accumulator. -/
theorem parseAux_error_of_badItem {items : List Str} {item : Str}
    (hmem : item ∈ items) (hbad : badItem item = true) :
    ∀ acc, ∃ e, parseMappingItemsAux acc items = Except.error e := by
  induction items with
  | nil => cases hmem
  | cons a rest ih =>
      intro acc
      cases hsp : splitEq a with
      | none =>
          exact ⟨("Invalid --map entry").toList, by simp [parseMappingItemsAux, hsp]⟩
      | some p =>
          cases he : (strip p.1).isEmpty with
          | true =>
              exact ⟨("Trigger text cannot be empty.").toList,
                by simp [parseMappingItemsAux, hsp, he]⟩
          | false =>
              have hmem2 : item ∈ rest := by
                rcases List.mem_cons.mp hmem with rfl | hm
                · simp [badItem, hsp, he] at hbad
                · exact hm
              rcases ih hmem2 (insertAssoc acc (strip p.1) p.2) with ⟨e, heq⟩
              refine ⟨e, ?_⟩
              simp only [parseMappingItemsAux, hsp, he]
              simpa using heq

/-- Delivering plain printable characters outside the suppression window
appends them to the buffer, as long as the cap is not reached. -/
theorem runEvents_plain_chars (evs : List (ℚ × Char)) :
    ∀ st : ReplacerState,
      (∀ p ∈ evs, st.ignoreUntil ≤ p.1 ∧ p.2 ∉ DELIMITERS) →
      st.buffer.length + evs.length ≤ BACKTRACK_LIMIT →
      (runEvents st (evs.map fun p => (p.1, Key.char p.2))).1 =
        { st with buffer := st.buffer ++ evs.map (fun p => p.2) } := by
  induction evs with
  | nil => intro st _ _; simp [runEvents]
  | cons e rest ih =>
      intro st hevs hlen
      have he := hevs e (List.mem_cons_self e rest)
      have hnot : ¬ e.1 < st.ignoreUntil := not_lt.mpr he.1
      have hcap : (st.buffer ++ [e.2]).length ≤ BACKTRACK_LIMIT := by
        simp only [List.length_cons] at hlen
        simp only [List.length_append, List.length_singleton]
        omega
      have hstep : onPress st e.1 (Key.char e.2) =
          ({ st with buffer := st.buffer ++ [e.2] }, []) := by
        simp [onPress, hnot, he.2, takeLast_eq_self hcap]
      have hrec := ih { st with buffer := st.buffer ++ [e.2] }
        (fun p hp => hevs p (List.mem_cons_of_mem e hp))
        (by simp only [List.length_append, List.length_singleton]
            simp only [List.length_cons] at hlen
            omega)
      simp only [List.map_cons, runEvents, hstep, hrec]
      simp [List.append_assoc]

/-! ### Claim theorems -/

/-- Claim C1: for every rule set and buffer contents, when a delimiter is
processed the rule applied is the highest-priority rule whose trigger is a
suffix of the buffer, priority being trigger length in descending order;
the replacement emitted by `_handle_delimiter` is the one of that rule, so a
shorter configured trigger that is also a suffix is never the one
emitted. -/
theorem C1_highest_priority_suffix_rule (m : List (Str × Str)) (u now : ℚ)
    (buffer d t r : Str)
    (h : findRule (sortRules m) buffer = some (t, r)) :
    (t, r) ∈ m ∧ t <:+ buffer ∧
      (∀ t2 r2, (t2, r2) ∈ m → t2 <:+ buffer → t2.length ≤ t.length) ∧
      handleDelimiter { replacements := sortRules m, buffer := buffer, ignoreUntil := u }
          now d =
        ({ replacements := sortRules m, buffer := [], ignoreUntil := now + DELAY },
          replaceTextEffects now t r d) := by
  have h2 : List.find? (fun p => p.1.isSuffixOf buffer) (sortRules m) = some (t, r) := h
  have hmem : (t, r) ∈ sortRules m := List.mem_of_find?_eq_some h2
  have hp := List.find?_some h2
  have hsuf : t <:+ buffer := List.isSuffixOf_iff_suffix.mp hp
  refine ⟨(List.mem_insertionSort ruleGE).mp hmem, hsuf, ?_, ?_⟩
  · intro t2 r2 hm2 hs2
    exact find?_length_max (sorted_sortRules m) h2 (t2, r2)
      ((List.mem_insertionSort ruleGE).mpr hm2) (List.isSuffixOf_iff_suffix.mpr hs2)
  · simp [handleDelimiter, findRule, h2]

/-- Witness for C1: with rules `ry → x` and `sorry → y` and buffer
`im sorry`, both triggers are suffixes, and the longer trigger `sorry`
is the one applied. -/
theorem C1_highest_priority_suffix_rule_witness :
    (("sorry".toList, "y".toList) ∈
        [("ry".toList, "x".toList), ("sorry".toList, "y".toList)]) ∧
      "sorry".toList <:+ "im sorry".toList ∧
      ("ry".toList).length ≤ ("sorry".toList).length ∧
      handleDelimiter
          { replacements := sortRules [("ry".toList, "x".toList), ("sorry".toList, "y".toList)],
            buffer := "im sorry".toList, ignoreUntil := 0 } 1 [' '] =
        ({ replacements := sortRules [("ry".toList, "x".toList), ("sorry".toList, "y".toList)],
            buffer := [], ignoreUntil := 1 + DELAY },
          replaceTextEffects 1 ("sorry".toList) ("y".toList) [' ']) := by
  have h := C1_highest_priority_suffix_rule
    [("ry".toList, "x".toList), ("sorry".toList, "y".toList)] 0 1
    ("im sorry".toList) [' '] ("sorry".toList) ("y".toList) (by decide)
  exact ⟨h.1, h.2.1, h.2.2.1 ("ry".toList) ("x".toList) (by decide) (by decide), h.2.2.2⟩

/-- Claim C2, counterexample: running the scenario rules
`{im → I am, im sorry → I apologize}` on the key sequence
`i, m, space, s, o, r, r, y, space`, the engine never types
`I apologize`: the claimed injection does not happen. -/
theorem C2_counterexample_no_apologize_typed :
    Effect.typeText ("I apologize".toList) ∉
      (runEvents { replacements := sortRules imRules, buffer := [], ignoreUntil := 0 }
        imEvents).2 := by
  have h2 : (runEvents { replacements := sortRules imRules, buffer := [], ignoreUntil := 0 }
      imEvents).2 =
      Effect.setIgnoreUntil (3 + DELAY) ::
        (backspacePairs 3 ++ [Effect.typeText ("I am".toList), Effect.typeText [' ']]) := by
    norm_num +decide [runEvents, onPress, handleDelimiter, findRule, replaceTextEffects,
      sortRules, List.insertionSort, List.orderedInsert, imEvents, imRules, DELAY,
      DELIMITERS, takeLast, backspacePairs]
  rw [h2]
  decide

/-- Claim C2, amended: on that key sequence the intermediate space already
finds buffer `im` and matches the 2-character trigger `im`, injecting
3 backspace pairs, `I am` and a space, and clearing the buffer; the final
space sees buffer `sorry`, matches nothing, and leaves the buffer
empty. -/
theorem C2_im_sorry_scenario_trace :
    init imRules =
        some { replacements := sortRules imRules, buffer := [], ignoreUntil := 0 } ∧
      (runEvents { replacements := sortRules imRules, buffer := [], ignoreUntil := 0 }
          imEvents).2 =
        Effect.setIgnoreUntil (3 + DELAY) ::
          (backspacePairs 3 ++ [Effect.typeText ("I am".toList), Effect.typeText [' ']]) ∧
      (runEvents { replacements := sortRules imRules, buffer := [], ignoreUntil := 0 }
          imEvents).1.buffer = [] := by
  refine ⟨rfl, ?_, ?_⟩ <;>
    norm_num +decide [runEvents, onPress, handleDelimiter, findRule, replaceTextEffects,
      sortRules, List.insertionSort, List.orderedInsert, imEvents, imRules, DELAY,
      DELIMITERS, takeLast, backspacePairs]

/-- Claim C3: any key event delivered strictly before the suppression
deadline is discarded entirely: the state (buffer and deadline) is
unchanged and no effect is emitted. -/
theorem C3_suppressed_event_is_discarded (st : ReplacerState) (now : ℚ) (k : Key)
    (h : now < st.ignoreUntil) : onPress st now k = (st, []) := by
  simp [onPress, h]

/-- Witness for C3: at time 0 with deadline 1, a trigger-spelling
character event leaves the state unchanged and emits nothing. -/
theorem C3_suppressed_event_is_discarded_witness :
    ((0 : ℚ) < 1) ∧
      onPress
          { replacements := [("im".toList, "I am".toList)], buffer := ['i'],
            ignoreUntil := 1 } 0 (Key.char 'm') =
        ({ replacements := [("im".toList, "I am".toList)], buffer := ['i'],
             ignoreUntil := 1 }, []) :=
  ⟨by norm_num,
    C3_suppressed_event_is_discarded _ 0 (Key.char 'm') (by norm_num)⟩

/-- Claim C4, counterexample: the constructor accepts a mapping whose only
trigger is a single space, which is empty after stripping: no
configuration error is raised. -/
theorem C4_counterexample_blank_trigger_accepted :
    strip [' '] = [] ∧ (init [([' '], "x".toList)]).isSome = true := ⟨rfl, rfl⟩

/-- Claim C4, amended: `TextReplacer.__init__` raises a configuration
error exactly when the mapping is empty; a trigger that is empty after
trimming whitespace is rejected only by the command-line item parser
`parse_mapping_items`, while the constructor itself accepts
whitespace-only triggers. -/
theorem C4_init_empty_only_and_parse_blank (m : List (Str × Str))
    (items : List Str) (item : Str) (hmem : item ∈ items) (hbad : badItem item = true) :
    (init m = none ↔ m = []) ∧ ∃ e, parse_mapping_items items = Except.error e := by
  constructor
  · cases m with
    | nil => simp [init]
    | cons a t => simp [init]
  · exact parseAux_error_of_badItem hmem hbad []

/-- Witness for C4: the item ` =x` has a blank trigger, so parsing the
singleton item list raises, while the constructor fails exactly on the
empty mapping. -/
theorem C4_init_empty_only_and_parse_blank_witness :
    ((" =x".toList ∈ [" =x".toList]) ∧ badItem (" =x".toList) = true) ∧
      (init [([' '], ['x'])] = none ↔ ([([' '], ['x'])] : List (Str × Str)) = []) ∧
      ∃ e, parse_mapping_items [" =x".toList] = Except.error e :=
  ⟨⟨by decide, by decide⟩,
    C4_init_empty_only_and_parse_blank [([' '], ['x'])] [" =x".toList] (" =x".toList)
      (by decide) (by decide)⟩

/-- Claim C5, counterexample: for the rule `btw → by the way` confirmed by
a space, the trace of `_replace_text` contains 4 backspace presses
(`len("btw") + len(" ")`), not the 3 stated in the example of the claim. -/
theorem C5_counterexample_btw_four_backspaces :
    countBackspacePress (replaceTextEffects 0 ("btw".toList) ("by the way".toList) [' ']) = 4 ∧
      countBackspacePress (replaceTextEffects 0 ("btw".toList) ("by the way".toList) [' ']) ≠ 3 := by
  constructor <;> decide

/-- Claim C5, amended: whenever a rule with trigger `T` and replacement
`R` matches on a non-empty delimiter `D`, the procedure first sets the
suppression deadline to `now + 0.2`, before any synthetic event, then
emits exactly `length T + length D` backspace press/release pairs, then
types `R`, then types `D`, in that order; in the `btw` example this is 4
backspaces (3 for the trigger plus 1 for the delimiter), then
`by the way`, then a space. -/
theorem C5_replacement_effect_order (st : ReplacerState) (now : ℚ) (t r d : Str)
    (hm : findRule st.replacements st.buffer = some (t, r)) (hd : d ≠ []) :
    (handleDelimiter st now d).2 =
        Effect.setIgnoreUntil (now + DELAY) ::
          (backspacePairs (t.length + d.length) ++
            [Effect.typeText r, Effect.typeText d]) ∧
      (handleDelimiter st now d).1.ignoreUntil = now + DELAY ∧
      countBackspacePress (backspacePairs (t.length + d.length)) = t.length + d.length := by
  have hde : d.isEmpty = false := List.isEmpty_eq_false.mpr hd
  have hm2 : List.find? (fun p => p.1.isSuffixOf st.buffer) st.replacements = some (t, r) := hm
  refine ⟨?_, ?_, countBackspacePress_backspacePairs _⟩
  · simp [handleDelimiter, findRule, hm2, replaceTextEffects, hde]
  · simp [handleDelimiter, findRule, hm2]

/-- The engine state right before the space in the `btw` scenario. -/
def btwState : ReplacerState :=
  { replacements := [("btw".toList, "by the way".toList)],
    buffer := "btw".toList, ignoreUntil := 0 }

/-- Witness for C5: the `btw` rule confirmed by a space emits the deadline
update, then `3 + 1` backspace pairs, then `by the way`, then the
space. -/
theorem C5_replacement_effect_order_witness :
    (handleDelimiter btwState 0 [' ']).2 =
        Effect.setIgnoreUntil (0 + DELAY) ::
          (backspacePairs (("btw".toList).length + ([' '] : Str).length) ++
            [Effect.typeText ("by the way".toList), Effect.typeText [' ']]) ∧
      (handleDelimiter btwState 0 [' ']).1.ignoreUntil = 0 + DELAY ∧
      countBackspacePress (backspacePairs (("btw".toList).length + ([' '] : Str).length)) =
        ("btw".toList).length + ([' '] : Str).length :=
  C5_replacement_effect_order btwState 0
    ("btw".toList) ("by the way".toList) [' '] (by decide) (by decide)

/-- Claim C6: processing any delimiter event outside the suppression
window (the named space, enter or tab keys, or a printable character in
the delimiter set) leaves the buffer empty, whether or not a rule
matched. -/
theorem C6_delimiter_event_clears_buffer (st : ReplacerState) (now : ℚ) (k : Key)
    (h : ¬ now < st.ignoreUntil)
    (hk : k = Key.space ∨ k = Key.enter ∨ k = Key.tab ∨
      ∃ c, k = Key.char c ∧ c ∈ DELIMITERS) :
    (onPress st now k).1.buffer = [] := by
  rcases hk with rfl | rfl | rfl | ⟨c, rfl, hc⟩
  · simp [onPress, h, handleDelimiter_buffer_eq_nil]
  · simp [onPress, h, handleDelimiter_buffer_eq_nil]
  · simp [onPress, h, handleDelimiter_buffer_eq_nil]
  · simp [onPress, h, hc, handleDelimiter_buffer_eq_nil]

/-- Witness for C6: a space event on buffer `hi` (which matches a rule)
leaves the buffer empty. -/
theorem C6_delimiter_event_clears_buffer_witness :
    (onPress
        { replacements := [("hi".toList, "hello".toList)], buffer := ['h', 'i'],
          ignoreUntil := 0 } 1 Key.space).1.buffer = [] :=
  C6_delimiter_event_clears_buffer _ 1 Key.space (by norm_num) (Or.inl rfl)

/-- Claim C7: starting from a buffer within the 250-character cap, the
buffer stays within the cap after any handled event; appending a plain
character keeps exactly the most recent characters (the new buffer is the
length-capped tail of the old buffer plus the character, a suffix of it,
of length exactly 250 once the cap is reached); and a trigger longer than
250 characters can never match such a buffer. -/
theorem C7_buffer_capped (st : ReplacerState) (h : st.buffer.length ≤ BACKTRACK_LIMIT) :
    (∀ now k, (onPress st now k).1.buffer.length ≤ BACKTRACK_LIMIT) ∧
      (∀ now c, ¬ now < st.ignoreUntil → c ∉ DELIMITERS →
        (onPress st now (Key.char c)).1.buffer = takeLast BACKTRACK_LIMIT (st.buffer ++ [c])) ∧
      (∀ l : Str, takeLast BACKTRACK_LIMIT l <:+ l ∧
        (BACKTRACK_LIMIT ≤ l.length → (takeLast BACKTRACK_LIMIT l).length = BACKTRACK_LIMIT)) ∧
      (∀ t : Str, BACKTRACK_LIMIT < t.length → t.isSuffixOf st.buffer = false) := by
  refine ⟨?_, ?_, ?_, ?_⟩
  · intro now k
    by_cases hs : now < st.ignoreUntil
    · simpa [onPress, hs] using h
    · cases k with
      | backspace =>
          simp only [onPress, hs, if_false, List.length_dropLast]
          simp only [BACKTRACK_LIMIT] at h ⊢
          omega
      | space => simp [onPress, hs, handleDelimiter_buffer_eq_nil]
      | enter => simp [onPress, hs, handleDelimiter_buffer_eq_nil]
      | tab => simp [onPress, hs, handleDelimiter_buffer_eq_nil]
      | other => simpa [onPress, hs] using h
      | char c =>
          by_cases hc : c ∈ DELIMITERS
          · simp [onPress, hs, hc, handleDelimiter_buffer_eq_nil]
          · simp only [onPress, hs, if_false, hc, takeLast, List.length_drop]
            omega
  · intro now c hs hc
    simp [onPress, hs, hc]
  · intro l
    exact ⟨List.drop_suffix _ l, fun hl => by simp only [takeLast, List.length_drop]; omega⟩
  · intro t ht
    cases hb : t.isSuffixOf st.buffer with
    | false => rfl
    | true =>
        exfalso
        have hsuf : t <:+ st.buffer := List.isSuffixOf_iff_suffix.mp hb
        have := hsuf.length_le
        omega

/-- Witness for C7: from the one-character buffer `a`, typing `b` keeps
the buffer within the cap and equal to the capped concatenation, and a
251-character trigger cannot match. -/
theorem C7_buffer_capped_witness :
    (onPress { replacements := [], buffer := ['a'], ignoreUntil := 0 } 1
        (Key.char 'b')).1.buffer.length ≤ BACKTRACK_LIMIT ∧
      (onPress { replacements := [], buffer := ['a'], ignoreUntil := 0 } 1
          (Key.char 'b')).1.buffer = takeLast BACKTRACK_LIMIT (['a'] ++ ['b']) ∧
      (List.replicate 251 'z').isSuffixOf ['a'] = false := by
  have h := C7_buffer_capped { replacements := [], buffer := ['a'], ignoreUntil := 0 }
    (by decide)
  exact ⟨h.1 1 (Key.char 'b'), h.2.1 1 'b' (by norm_num) (by decide),
    h.2.2.2 (List.replicate 251 'z') (by rw [List.length_replicate]; norm_num [BACKTRACK_LIMIT])⟩

/-- Claim C8: a sequence of plain printable non-delimiter characters
shorter than the cap, delivered outside any suppression window after the
buffer was last emptied, leaves the buffer equal to the literal
concatenation of the delivered characters. -/
theorem C8_plain_chars_concatenate (st : ReplacerState) (evs : List (ℚ × Char))
    (hb : st.buffer = []) (hlen : evs.length < BACKTRACK_LIMIT)
    (hevs : ∀ p ∈ evs, st.ignoreUntil ≤ p.1 ∧ p.2 ∉ DELIMITERS) :
    (runEvents st (evs.map fun p => (p.1, Key.char p.2))).1.buffer =
      evs.map (fun p => p.2) := by
  have hcap : st.buffer.length + evs.length ≤ BACKTRACK_LIMIT := by
    rw [hb]
    simpa using Nat.le_of_lt hlen
  rw [runEvents_plain_chars evs st hevs hcap]
  simp [hb]

/-- Witness for C8: typing `h` then `i` from an empty buffer outside the
suppression window yields buffer `hi`. -/
theorem C8_plain_chars_concatenate_witness :
    (runEvents { replacements := [], buffer := [], ignoreUntil := 0 }
        ([((1 : ℚ), 'h'), (2, 'i')].map fun p => (p.1, Key.char p.2))).1.buffer =
      [((1 : ℚ), 'h'), (2, 'i')].map (fun p => p.2) :=
  C8_plain_chars_concatenate { replacements := [], buffer := [], ignoreUntil := 0 }
    [((1 : ℚ), 'h'), (2, 'i')] rfl (by decide)
    (by
      intro p hp
      rcases List.mem_cons.mp hp with rfl | hp
      · exact ⟨by norm_num, by decide⟩
      · rcases List.mem_cons.mp hp with rfl | hp
        · exact ⟨by norm_num, by decide⟩
        · cases hp)

/-- Claim C9: outside the suppression window, a backspace event removes
exactly the last character of the buffer (the buffer becomes its
`dropLast`, so a buffer `b ++ [c]` becomes `b`), emits nothing else, and
an already-empty buffer stays empty without any error. -/
theorem C9_backspace_removes_last (st : ReplacerState) (now : ℚ)
    (h : ¬ now < st.ignoreUntil) :
    onPress st now Key.backspace = ({ st with buffer := st.buffer.dropLast }, []) ∧
      (∀ b c, st.buffer = b ++ [c] → st.buffer.dropLast = b) ∧
      (st.buffer = [] → st.buffer.dropLast = []) := by
  refine ⟨by simp [onPress, h], fun b c hb => ?_, fun hb => ?_⟩
  · rw [hb]
    exact List.dropLast_concat
  · rw [hb]
    rfl

/-- Witness for C9: a backspace on buffer `hi` yields buffer `h` with no
emitted effects. -/
theorem C9_backspace_removes_last_witness :
    onPress { replacements := [], buffer := ['h', 'i'], ignoreUntil := 0 } 1 Key.backspace =
        ({ replacements := [], buffer := ['h'], ignoreUntil := 0 }, []) ∧
      (['h', 'i'] : Str).dropLast = ['h'] := by
  have h := C9_backspace_removes_last
    { replacements := [], buffer := ['h', 'i'], ignoreUntil := 0 } 1 (by norm_num)
  exact ⟨h.1, h.2.1 ['h'] 'i' rfl⟩

/-- Claim C10: the buffer never contains a delimiter character: every
handler invocation preserves the invariant that no buffered character is
in the delimiter set, since printable delimiter characters are routed to
delimiter handling (which empties the buffer) instead of being
appended. -/
theorem C10_buffer_never_contains_delimiter (st : ReplacerState) (now : ℚ) (k : Key)
    (h : ∀ c ∈ st.buffer, c ∉ DELIMITERS) :
    ∀ c ∈ (onPress st now k).1.buffer, c ∉ DELIMITERS := by
  by_cases hs : now < st.ignoreUntil
  · simpa [onPress, hs] using h
  · cases k with
    | backspace =>
        intro c hc
        refine h c ((List.dropLast_sublist st.buffer).subset ?_)
        simpa [onPress, hs] using hc
    | space =>
        intro c hc
        simp [onPress, hs, handleDelimiter_buffer_eq_nil] at hc
    | enter =>
        intro c hc
        simp [onPress, hs, handleDelimiter_buffer_eq_nil] at hc
    | tab =>
        intro c hc
        simp [onPress, hs, handleDelimiter_buffer_eq_nil] at hc
    | other => simpa [onPress, hs] using h
    | char c0 =>
        by_cases hc0 : c0 ∈ DELIMITERS
        · intro c hc
          simp [onPress, hs, hc0, handleDelimiter_buffer_eq_nil] at hc
        · intro c hc
          have hc2 : c ∈ (st.buffer ++ [c0]).drop ((st.buffer ++ [c0]).length - BACKTRACK_LIMIT) := by
            simpa [onPress, hs, hc0, takeLast] using hc
          have hmem : c ∈ st.buffer ++ [c0] := List.drop_subset _ _ hc2
          rcases List.mem_append.mp hmem with h1 | h1
          · exact h c h1
          · rw [List.mem_singleton] at h1
            subst h1
            exact hc0

/-- Witness for C10: appending `i` to the delimiter-free buffer `h` keeps
the buffer delimiter-free; in particular its new last character is not a
delimiter. -/
theorem C10_buffer_never_contains_delimiter_witness :
    (onPress { replacements := [], buffer := ['h'], ignoreUntil := 0 } 1
        (Key.char 'i')).1.buffer = ['h', 'i'] ∧ 'i' ∉ DELIMITERS := by
  refine ⟨by decide, ?_⟩
  exact C10_buffer_never_contains_delimiter
    { replacements := [], buffer := ['h'], ignoreUntil := 0 } 1 (Key.char 'i')
    (by decide) 'i' (by decide)

end TextReplacer
